import Mathlib

/-!
Verification development for the CU Nordic Ski Club client-side script
(`script.js` and its companion source file).  The script persists three
kinds of records in the browser's local storage (`privacyConsent`,
`menuState`, `formData_<formId>`), validates form fields, filters a list
of content items by substring, and offers a "clear all data" control.

The embedding below models local storage as a partial map from keys to
stored documents.  A stored document is either `malformed` (a string on
which `JSON.parse` throws) or a parsed JSON value `JsVal`.  JSON numbers
are restricted to integers (`Int`): every number the script itself writes
is a `Date.now()` epoch-millisecond integer, and the age comparisons the
claims are about are integer comparisons.  JSON arrays are omitted: no
persisted record of this program contains an array.  JavaScript's `NaN`
is modelled by `Option Int` (`none` = NaN) at the points where numeric
coercion happens (`Date.now() - timestamp`, `parseInt`).
-/

/-- JSON-like JavaScript values after `JSON.parse`, plus `undefinedJs` for the
result of reading an absent object property. Numbers restricted to `Int`,
arrays omitted (see module comment). -/
inductive JsVal where
  | undefinedJs : JsVal
  | null : JsVal
  | bool : Bool → JsVal
  | num : Int → JsVal
  | str : String → JsVal
  | obj : List (String × JsVal) → JsVal
deriving Repr

/-- A value held in local storage: either a string that `JSON.parse`
rejects, or one that parses to `v`.  Serialization is modelled
abstractly: `JSON.stringify` of a value written by this program round
trips through `JSON.parse`. -/
inductive StoredDoc where
  | malformed : StoredDoc
  | val : JsVal → StoredDoc
deriving Repr

/-- Local storage: `none` models `localStorage.getItem(k) === null`. -/
abbrev Store := String → Option StoredDoc

/-- Model of `localStorage.setItem`. -/
def setKey (st : Store) (k : String) (v : StoredDoc) : Store :=
  fun q => if q = k then some v else st q

/-- Model of `localStorage.removeItem`. -/
def removeKey (st : Store) (k : String) : Store :=
  fun q => if q = k then none else st q

/-- The empty store (after `localStorage.clear()`). -/
def emptyStore : Store := fun _ => none

/-- JavaScript whitespace (the ASCII part of the `\s` character class and
of the set trimmed by `String.prototype.trim`). -/
def jsWs (c : Char) : Bool :=
  c = ' ' || c = '\t' || c = '\n' || c = '\r' || c = '\x0b' || c = '\x0c'

/-- Model of `String.prototype.trim`. -/
def jsTrim (s : String) : String :=
  String.mk (((s.toList.dropWhile jsWs).reverse.dropWhile jsWs).reverse)

/-- ASCII lower-casing of one character, as `toLowerCase` acts on the
character sets used here. -/
def asciiLower (c : Char) : Char :=
  if 'A' ≤ c ∧ c ≤ 'Z' then Char.ofNat (c.toNat + 32) else c

/-- Model of `String.prototype.toLowerCase` (ASCII range). -/
def jsToLower (s : String) : String :=
  String.mk (s.toList.map asciiLower)

/-- JavaScript truthiness of a `JsVal`. -/
def truthy : JsVal → Bool
  | .undefinedJs => false
  | .null => false
  | .bool b => b
  | .num n => n ≠ 0
  | .str s => s ≠ ""
  | .obj _ => true

/-- Value of a decimal digit string, if every character is a digit. -/
def decDigits : List Char → Option Nat
  | [] => none
  | cs =>
    if cs.all Char.isDigit then
      some (cs.foldl (fun n c => n * 10 + (c.toNat - '0'.toNat)) 0)
    else none

/-- Model of JavaScript `Number(s)` for the strings relevant here: trimmed
empty string coerces to 0, optionally signed all-digit strings to their
value, everything else (including non-integer numerics, out of scope) to
NaN (`none`). -/
def strToNum (s : String) : Option Int :=
  match (jsTrim s).toList with
  | [] => some 0
  | '-' :: rest => (decDigits rest).map (fun n => -(n : Int))
  | '+' :: rest => (decDigits rest).map (fun n => (n : Int))
  | cs => (decDigits cs).map (fun n => (n : Int))

/-- Numeric coercion of a `JsVal` as in `now - timestamp`; `none` is NaN. -/
def toNum : JsVal → Option Int
  | .undefinedJs => none
  | .null => some 0
  | .bool b => some (if b then 1 else 0)
  | .num n => some n
  | .str s => strToNum s
  | .obj _ => none

/-- Property lookup in an object's field list (`undefinedJs` when absent). -/
def lookupProp : List (String × JsVal) → String → JsVal
  | [], _ => .undefinedJs
  | (k, v) :: rest, n => if n = k then v else lookupProp rest n

/-- Reading property `k` of a JavaScript value: fields of an object,
`undefined` on primitives (no string built-ins such as `length` are among
the property names this program reads). -/
def getProp (v : JsVal) (k : String) : JsVal :=
  match v with
  | .obj fs => lookupProp fs k
  | _ => .undefinedJs

/-- Model of the destructuring `const { k1, k2 } = v`: throws (`none`) on
`null`/`undefined`, otherwise reads both properties. -/
def destruct (v : JsVal) (k1 k2 : String) : Option (JsVal × JsVal) :=
  match v with
  | .null => none
  | .undefinedJs => none
  | _ => some (getProp v k1, getProp v k2)

/-- Model of `Date.now() - timestamp < limit` including NaN propagation:
a non-numeric timestamp makes the comparison false. -/
def ageLt (now : Int) (ts : JsVal) (limit : Int) : Bool :=
  match toNum ts with
  | some t => decide (now - t < limit)
  | none => false

/-- String coercion used by `input.value = x`. -/
def jsToString : JsVal → String
  | .undefinedJs => "undefined"
  | .null => "null"
  | .bool b => if b then "true" else "false"
  | .num n => toString n
  | .str s => s
  | .obj _ => "[object Object]"

/-- Model of `Object.keys(data)` paired with the property reads
`data[name]`: the field list of an object, index/character pairs of a
string, the empty list for booleans and numbers, and a thrown `TypeError`
(`none`) for `null`/`undefined`. -/
def objEntries : JsVal → Option (List (String × JsVal))
  | .obj kvs => some kvs
  | .str s =>
    some ((List.range s.toList.length).map
      (fun i => (toString i, JsVal.str (String.mk [s.toList.getD i ' ']))))
  | .bool _ => some []
  | .num _ => some []
  | .null => none
  | .undefinedJs => none

-- ============================================
-- NavigationController
-- ============================================

/-- `NavigationController.loadMenuState`: returns whether `openMenu()` is
invoked, i.e. whether the persisted menu state is restored to open.
`now` is `Date.now()`, `w` is `window.innerWidth`.  Any exception
(`JSON.parse`, destructuring) is caught and restores nothing. -/
def loadMenuState (st : Store) (now w : Int) : Bool :=
  match st "menuState" with
  | some (.val v) =>
    match destruct v "isOpen" "timestamp" with
    | some (isOpen, ts) => ageLt now ts 3600000 && decide (w ≤ 768) && truthy isOpen
    | none => false
  | _ => false

-- ============================================
-- PrivacyController
-- ============================================

/-- `PrivacyController.getPrivacyConsent`: returns the JavaScript value
the method returns — the stored `accepted` value when the record is
younger than one year, `false` on every other path (absent key, parse
error, destructuring error, expired record). -/
def getPrivacyConsent (st : Store) (now : Int) : JsVal :=
  match st "privacyConsent" with
  | some (.val v) =>
    match destruct v "accepted" "timestamp" with
    | some (accepted, ts) =>
      if ageLt now ts 31536000000 then accepted else .bool false
    | none => .bool false
  | _ => .bool false

/-- `PrivacyController.init`: the consent banner is shown exactly when
`getPrivacyConsent` returns a falsy value (`if (!hasAccepted) showNotice()`). -/
def privacyNoticeShown (st : Store) (now : Int) : Bool :=
  !(truthy (getPrivacyConsent st now))

-- ============================================
-- FormController
-- ============================================

/-- A form control as `validateField` and `saveFormData` see it:
`value`/`type`/`name` properties, the presence of the `required`
attribute, and the raw `minlength` attribute (`none` models
`getAttribute` returning `null`). -/
structure FieldInput where
  value : String
  type : String
  required : Bool
  name : String
  minlength : Option String
deriving Repr, DecidableEq

/-- Character class `[^\s@]` of the email pattern. -/
def emailLocalChar (c : Char) : Bool := !jsWs c && c ≠ '@'

/-- Test of the pattern `^[^\s@]+@[^\s@]+\.[^\s@]+$`: exactly one `@`,
no whitespace, a nonempty local part, and after the `@` a dot with
nonempty text on both sides. -/
def emailTest (s : String) : Bool :=
  match s.toList.splitOn '@' with
  | [a, b] =>
    a ≠ [] && a.all emailLocalChar && b.all emailLocalChar &&
      ((b.drop 1).dropLast.contains '.')
  | _ => false

/-- Character class `[\d\s\-\(\)]` of the phone pattern. -/
def phoneChar (c : Char) : Bool :=
  c.isDigit || jsWs c || c = '-' || c = '(' || c = ')'

/-- Test of the pattern `^[\d\s\-\(\)]+$`. -/
def phoneTest (s : String) : Bool :=
  s ≠ "" && s.toList.all phoneChar

/-- Model of JavaScript `parseInt(s)` (decimal): skip leading whitespace,
optional sign, then a maximal nonempty digit prefix; `none` is NaN. -/
def parseIntJs (s : String) : Option Int :=
  match s.toList.dropWhile jsWs with
  | '-' :: rest =>
    match rest.takeWhile Char.isDigit with
    | [] => none
    | ds => (decDigits ds).map (fun n => -(n : Int))
  | '+' :: rest =>
    match rest.takeWhile Char.isDigit with
    | [] => none
    | ds => (decDigits ds).map (fun n => (n : Int))
  | cs =>
    match cs.takeWhile Char.isDigit with
    | [] => none
    | ds => (decDigits ds).map (fun n => (n : Int))

/-- The comparison `value.length < parseInt(minLength)`; false when
`parseInt` yields NaN. -/
def minLenLt (len : Nat) (ml : String) : Bool :=
  match parseIntJs ml with
  | some k => decide ((len : Int) < k)
  | none => false

/-- `FormController.validateField`: `none` means the field passes, `some
msg` means the first failing rule reported `msg`.  Mirrors the source's
early returns: required-empty, email pattern, phone pattern, minimum
length. -/
def validateField (input : FieldInput) : Option String :=
  let value := jsTrim input.value
  if input.required = true ∧ value = "" then
    some "This field is required"
  else if input.type = "email" ∧ value ≠ "" ∧ emailTest value = false then
    some "Please enter a valid email address"
  else if input.name = "phone" ∧ value ≠ "" ∧ phoneTest value = false then
    some "Please enter a valid phone number"
  else
    match input.minlength with
    | some ml =>
      if ml ≠ "" ∧ minLenLt value.length ml = true then
        some ("Please enter at least " ++ ml ++ " characters")
      else none
    | none => none

/-- Specification-side reading of validation rule (a): the field is
marked required and its trimmed value is empty. -/
def ruleRequired (i : FieldInput) : Prop :=
  i.required = true ∧ jsTrim i.value = ""

/-- Specification-side reading of validation rule (b): an email field
whose nonempty trimmed value does not match the `local@domain.tld`
pattern. -/
def ruleEmail (i : FieldInput) : Prop :=
  i.type = "email" ∧ jsTrim i.value ≠ "" ∧ emailTest (jsTrim i.value) = false

/-- Specification-side reading of validation rule (c): a field named
"phone" whose nonempty trimmed value contains a character outside
digits, whitespace, '-', '(' and ')'. -/
def rulePhone (i : FieldInput) : Prop :=
  i.name = "phone" ∧ jsTrim i.value ≠ ""
    ∧ ∃ c ∈ (jsTrim i.value).toList, phoneChar c = false

/-- Specification-side reading of validation rule (d): a declared
minimum length exceeding the trimmed value's length. -/
def ruleMinLen (i : FieldInput) : Prop :=
  ∃ ml, i.minlength = some ml ∧ ml ≠ "" ∧ minLenLt (jsTrim i.value).length ml = true

/-- Assignment `formData[name] = value` on a JavaScript object modelled
as an insertion-ordered field list: an existing key keeps its position
and gets the new value, a new key is appended. -/
def upsert : List (String × String) → String → String → List (String × String)
  | [], k, v => [(k, v)]
  | (k', v') :: rest, k, v =>
    if k' = k then (k', v) :: rest else (k', v') :: upsert rest k v

/-- The `formData` object built by `saveFormData`: every input that is
not of type `submit` and has a truthy (nonempty) `name` contributes
`formData[input.name] = input.value`, in document order. -/
def savedData (inputs : List FieldInput) : List (String × String) :=
  inputs.foldl
    (fun acc i => if i.type ≠ "submit" ∧ i.name ≠ "" then upsert acc i.name i.value else acc)
    []

/-- `FormController.saveFormData`: writes
`{data: formData, timestamp: now}` under `formData_<formId>`. -/
def saveFormData (inputs : List FieldInput) (st : Store) (formId : String) (now : Int) : Store :=
  setKey st ("formData_" ++ formId)
    (.val (.obj [("data", .obj ((savedData inputs).map (fun p => (p.1, JsVal.str p.2)))),
                 ("timestamp", .num now)]))

/-- Assignment `input.value = data[name]` for the first form control
named `k` (as `form.querySelector` finds it); controls with other names
are untouched, and a missing name is a no-op. -/
def setField : List (String × String) → String → String → List (String × String)
  | [], _, _ => []
  | (n, v) :: rest, k, nv =>
    if n = k then (n, nv) :: rest else (n, v) :: setField rest k nv

/-- Value of the first form control named `n` (the one
`form.querySelector` and the replay loop operate on). -/
def lookupField : List (String × String) → String → Option String
  | [], _ => none
  | (k, v) :: rest, n => if n = k then some v else lookupField rest n

/-- The `Object.keys(data).forEach` replay loop of `loadFormData`. -/
def applyEntries (kvs : List (String × JsVal)) (fields : List (String × String)) :
    List (String × String) :=
  kvs.foldl (fun acc p => setField acc p.1 (jsToString p.2)) fields

/-- `FormController.loadFormData` over the form's current name/value
pairs: returns the fields after the replay and whether the
restored-data notice was shown.  Every exception path (parse error,
destructuring error, `Object.keys` on `null`) is caught and leaves the
form unchanged with no notice. -/
def loadFormData (st : Store) (formId : String) (now : Int)
    (fields : List (String × String)) : List (String × String) × Bool :=
  match st ("formData_" ++ formId) with
  | some (.val v) =>
    match destruct v "data" "timestamp" with
    | some (data, ts) =>
      if ageLt now ts 86400000 then
        match objEntries data with
        | some kvs => (applyEntries kvs fields, true)
        | none => (fields, false)
      else (fields, false)
    | none => (fields, false)
  | _ => (fields, false)

/-- `FormController.clearSavedFormData`. -/
def clearSavedFormData (st : Store) (formId : String) : Store :=
  removeKey st ("formData_" ++ formId)

/-- `FormController.handleSubmit`: validates every field; on all-pass it
clears the saved draft and submits (success notice and delayed reset are
presentation only), otherwise it aborts, leaves storage untouched and
focuses the first field that failed (the first `.error` element).
Returns (submitted, storage after, focused field). -/
def handleSubmit (inputs : List FieldInput) (st : Store) (formId : String) :
    Bool × Store × Option FieldInput :=
  if inputs.all (fun i => (validateField i).isNone) then
    (true, clearSavedFormData st formId, none)
  else
    (false, st, inputs.find? (fun i => (validateField i).isSome))

-- ============================================
-- ContentFilter
-- ============================================

/-- List-of-characters prefix test (first argument is the candidate
prefix). -/
def isPre : List Char → List Char → Bool
  | [], _ => true
  | _ :: _, [] => false
  | a :: as, b :: bs => a = b && isPre as bs

/-- Substring occurrence of `needle` in the second list, as
`String.prototype.includes` (the empty needle always occurs). -/
def hasSub (needle : List Char) : List Char → Bool
  | [] => isPre needle []
  | c :: rest => isPre needle (c :: rest) || hasSub needle rest

/-- Model of `hay.includes(needle)`. -/
def jsIncludes (hay needle : String) : Bool :=
  hasSub needle.toList hay.toList

/-- `ContentFilter.filterContent` followed by `updateLiveRegion`: per
item (its `textContent`) whether it stays visible, and the live-region
text.  The query is lower-cased and trimmed before matching, item text is
lower-cased. -/
def filterContent (searchTerm : String) (items : List String) : List Bool × String :=
  let term := jsTrim (jsToLower searchTerm)
  let vis := items.map (fun text => jsIncludes (jsToLower text) term || decide (term = ""))
  let visibleCount := vis.count true
  let total := items.length
  (vis, "Showing " ++ toString visibleCount ++ " of " ++ toString total ++ " items")

-- ============================================
-- DataManagement
-- ============================================

/-- `DataManagement.clearAllData`: with confirmation, wipes local storage
and reloads the page; without it, changes nothing.  Returns (storage
after, whether the page reloads). -/
def clearAllData (confirmed : Bool) (st : Store) : Store × Bool :=
  if confirmed then (emptyStore, true) else (st, false)

/-- Applying `entries` one after another with plain string values; the
shape `applyEntries` takes on drafts written by `saveFormData`. -/
def setAll (entries : List (String × String)) (fields : List (String × String)) :
    List (String × String) :=
  entries.foldl (fun acc p => setField acc p.1 p.2) fields

-- ============================================
-- Helper lemmas about the field-list operations
-- ============================================

theorem lookupField_setField_ne (fs : List (String × String)) (k v n : String) (h : n ≠ k) :
    lookupField (setField fs k v) n = lookupField fs n := by
  induction fs with
  | nil => rfl
  | cons p rest ih =>
    obtain ⟨pn, pv⟩ := p
    simp only [setField]
    by_cases hpk : pn = k
    · rw [if_pos hpk]
      subst hpk
      simp only [lookupField]
      rw [if_neg h, if_neg h]
    · rw [if_neg hpk]
      simp only [lookupField]
      by_cases hnp : n = pn
      · rw [if_pos hnp, if_pos hnp]
      · rw [if_neg hnp, if_neg hnp, ih]

theorem keys_setField (fs : List (String × String)) (k v : String) :
    (setField fs k v).map Prod.fst = fs.map Prod.fst := by
  induction fs with
  | nil => rfl
  | cons p rest ih =>
    obtain ⟨pn, pv⟩ := p
    simp only [setField]
    by_cases hpk : pn = k
    · rw [if_pos hpk]
      simp
    · rw [if_neg hpk]
      simp only [List.map_cons, ih]

theorem lookupField_setField_self (fs : List (String × String)) (n v : String)
    (h : n ∈ fs.map Prod.fst) :
    lookupField (setField fs n v) n = some v := by
  induction fs with
  | nil => simp at h
  | cons p rest ih =>
    obtain ⟨pn, pv⟩ := p
    simp only [setField]
    by_cases hpn : pn = n
    · rw [if_pos hpn]
      simp only [lookupField]
      rw [if_pos hpn.symm]
    · rw [if_neg hpn]
      simp only [lookupField]
      rw [if_neg (fun hh => hpn hh.symm)]
      apply ih
      simp only [List.map_cons, List.mem_cons] at h
      rcases h with h | h
      · exact absurd h.symm hpn
      · exact h

theorem setField_of_lookup_self (fs : List (String × String)) (n v : String)
    (h : lookupField fs n = some v) : setField fs n v = fs := by
  induction fs with
  | nil => rfl
  | cons p rest ih =>
    obtain ⟨pn, pv⟩ := p
    simp only [lookupField] at h
    simp only [setField]
    by_cases hpn : pn = n
    · rw [if_pos hpn]
      rw [if_pos hpn.symm] at h
      injection h with hv
      rw [hv]
    · rw [if_neg hpn]
      rw [if_neg (fun hh => hpn hh.symm)] at h
      rw [ih h]

theorem setAll_cons (p : String × String) (rest : List (String × String))
    (fields : List (String × String)) :
    setAll (p :: rest) fields = setAll rest (setField fields p.1 p.2) := rfl

theorem setAll_lookup_notMem (entries : List (String × String))
    (fields : List (String × String)) (n : String) (h : n ∉ entries.map Prod.fst) :
    lookupField (setAll entries fields) n = lookupField fields n := by
  induction entries generalizing fields with
  | nil => rfl
  | cons p rest ih =>
    rw [setAll_cons]
    have hne : n ≠ p.1 := by
      intro hh
      exact h (by simp [hh])
    have hrest : n ∉ rest.map Prod.fst := by
      intro hh
      exact h (by simp [hh])
    rw [ih _ hrest, lookupField_setField_ne _ _ _ _ hne]

theorem setAll_lookup_mem (entries : List (String × String))
    (fields : List (String × String)) (n v : String)
    (hnd : (entries.map Prod.fst).Nodup) (hl : lookupField entries n = some v)
    (hmem : n ∈ fields.map Prod.fst) :
    lookupField (setAll entries fields) n = some v := by
  induction entries generalizing fields with
  | nil => simp [lookupField] at hl
  | cons p rest ih =>
    obtain ⟨k, w⟩ := p
    rw [setAll_cons]
    simp only [lookupField] at hl
    simp only [List.map_cons, List.nodup_cons] at hnd
    by_cases hnk : n = k
    · rw [if_pos hnk] at hl
      injection hl with hv
      subst hnk
      subst hv
      rw [setAll_lookup_notMem rest _ n hnd.1]
      exact lookupField_setField_self fields n w hmem
    · rw [if_neg hnk] at hl
      refine ih (setField fields k w) hnd.2 hl ?_
      rw [keys_setField]
      exact hmem

theorem setAll_id (entries : List (String × String)) (fields : List (String × String))
    (h : ∀ p ∈ entries, lookupField fields p.1 = some p.2) :
    setAll entries fields = fields := by
  induction entries with
  | nil => rfl
  | cons p rest ih =>
    rw [setAll_cons, setField_of_lookup_self fields p.1 p.2 (h p (List.mem_cons_self _ _))]
    exact ih (fun q hq => h q (List.mem_cons_of_mem _ hq))

theorem applyEntries_str (kvs : List (String × String)) (fields : List (String × String)) :
    applyEntries (kvs.map (fun p => (p.1, JsVal.str p.2))) fields = setAll kvs fields := by
  rw [applyEntries, setAll, List.foldl_map]
  rfl

theorem applyEntries_lookup_notMem (kvs : List (String × JsVal))
    (fields : List (String × String)) (n : String) (h : n ∉ kvs.map Prod.fst) :
    lookupField (applyEntries kvs fields) n = lookupField fields n := by
  induction kvs generalizing fields with
  | nil => rfl
  | cons p rest ih =>
    have hstep : applyEntries (p :: rest) fields
        = applyEntries rest (setField fields p.1 (jsToString p.2)) := rfl
    rw [hstep]
    have hne : n ≠ p.1 := by
      intro hh
      exact h (by simp [hh])
    have hrest : n ∉ rest.map Prod.fst := by
      intro hh
      exact h (by simp [hh])
    rw [ih _ hrest, lookupField_setField_ne _ _ _ _ hne]

-- ============================================
-- Helper lemmas about upsert / savedData
-- ============================================

theorem upsert_keys_mem (acc : List (String × String)) (k v : String)
    (h : k ∈ acc.map Prod.fst) :
    (upsert acc k v).map Prod.fst = acc.map Prod.fst := by
  induction acc with
  | nil => simp at h
  | cons p rest ih =>
    obtain ⟨pn, pv⟩ := p
    simp only [upsert]
    by_cases hpk : pn = k
    · rw [if_pos hpk]
      simp
    · rw [if_neg hpk]
      simp only [List.map_cons, List.mem_cons] at h ⊢
      rcases h with h | h
      · exact absurd h.symm hpk
      · rw [ih h]

theorem upsert_notMem_append (acc : List (String × String)) (k v : String)
    (h : k ∉ acc.map Prod.fst) :
    upsert acc k v = acc ++ [(k, v)] := by
  induction acc with
  | nil => rfl
  | cons p rest ih =>
    obtain ⟨pn, pv⟩ := p
    simp only [upsert]
    have hpk : pn ≠ k := by
      intro hh
      exact h (by simp [hh])
    rw [if_neg hpk]
    have hrest : k ∉ rest.map Prod.fst := by
      intro hh
      exact h (by simp [hh])
    rw [ih hrest]
    rfl

theorem upsert_keys_nodup (acc : List (String × String)) (k v : String)
    (h : (acc.map Prod.fst).Nodup) :
    ((upsert acc k v).map Prod.fst).Nodup := by
  by_cases hk : k ∈ acc.map Prod.fst
  · rw [upsert_keys_mem _ _ _ hk]
    exact h
  · rw [upsert_notMem_append _ _ _ hk]
    simp only [List.map_append]
    rw [List.nodup_append]
    refine ⟨h, List.nodup_singleton _, ?_⟩
    intro x hx hx1
    simp only [List.map_cons, List.map_nil, List.mem_singleton] at hx1
    subst hx1
    exact hk hx

theorem savedData_keys_nodup (inputs : List FieldInput) :
    ((savedData inputs).map Prod.fst).Nodup := by
  suffices h : ∀ acc : List (String × String), (acc.map Prod.fst).Nodup →
      (((inputs.foldl
        (fun acc i =>
          if i.type ≠ "submit" ∧ i.name ≠ "" then upsert acc i.name i.value else acc)
        acc)).map Prod.fst).Nodup by
    exact h [] (by simp)
  induction inputs with
  | nil => intro acc hacc; exact hacc
  | cons i rest ih =>
    intro acc hacc
    simp only [List.foldl_cons]
    by_cases hp : i.type ≠ "submit" ∧ i.name ≠ ""
    · rw [if_pos hp]
      exact ih _ (upsert_keys_nodup _ _ _ hacc)
    · rw [if_neg hp]
      exact ih _ hacc

theorem savedData_eq_of_nodup (inputs : List FieldInput)
    (hn : (inputs.map FieldInput.name).Nodup) :
    savedData inputs
      = (inputs.filter (fun i => decide (i.type ≠ "submit" ∧ i.name ≠ ""))).map
          (fun i => (i.name, i.value)) := by
  suffices h : ∀ acc : List (String × String),
      (inputs.map FieldInput.name).Nodup →
      (∀ i ∈ inputs, i.name ∉ acc.map Prod.fst) →
      (inputs.foldl
        (fun acc i =>
          if i.type ≠ "submit" ∧ i.name ≠ "" then upsert acc i.name i.value else acc)
        acc)
        = acc ++ (inputs.filter (fun i => decide (i.type ≠ "submit" ∧ i.name ≠ ""))).map
            (fun i => (i.name, i.value)) by
    simpa using h [] hn (by simp)
  clear hn
  induction inputs with
  | nil => intro acc _ _; simp
  | cons i rest ih =>
    intro acc hn hdisj
    simp only [List.map_cons, List.nodup_cons] at hn
    simp only [List.foldl_cons]
    by_cases hp : i.type ≠ "submit" ∧ i.name ≠ ""
    · rw [if_pos hp]
      rw [upsert_notMem_append _ _ _ (hdisj i (List.mem_cons_self _ _))]
      rw [ih _ hn.2 ?hdisj2]
      case hdisj2 =>
        intro j hj
        simp only [List.map_append, List.mem_append]
        rintro (hja | hjb)
        · exact hdisj j (List.mem_cons_of_mem _ hj) hja
        · simp only [List.map_cons, List.map_nil, List.mem_singleton] at hjb
          exact hn.1 (hjb ▸ List.mem_map_of_mem FieldInput.name hj)
      rw [List.filter_cons_of_pos (by exact decide_eq_true hp)]
      simp [List.append_assoc]
    · rw [if_neg hp]
      rw [ih _ hn.2 (fun j hj => hdisj j (List.mem_cons_of_mem _ hj))]
      rw [List.filter_cons_of_neg (by simpa using hp)]

theorem lookupField_map_name (inputs : List FieldInput) (i : FieldInput)
    (h : i ∈ inputs) (hn : (inputs.map FieldInput.name).Nodup) :
    lookupField (inputs.map (fun j => (j.name, j.value))) i.name = some i.value := by
  induction inputs with
  | nil => simp at h
  | cons j rest ih =>
    simp only [List.map_cons, List.nodup_cons] at hn
    simp only [List.map_cons, lookupField]
    rcases List.mem_cons.mp h with h | h
    · subst h
      rw [if_pos rfl]
    · have hne : i.name ≠ j.name := by
        intro hh
        exact hn.1 (hh ▸ List.mem_map_of_mem FieldInput.name h)
      rw [if_neg hne]
      exact ih h hn.2

-- ============================================
-- Reduction lemmas for the storage readers
-- ============================================

theorem getPrivacyConsent_eq (st : Store) (now : Int) (accV tsV : JsVal)
    (h : st "privacyConsent"
      = some (.val (.obj [("accepted", accV), ("timestamp", tsV)]))) :
    getPrivacyConsent st now = (if ageLt now tsV 31536000000 then accV else .bool false) := by
  simp [getPrivacyConsent, h, destruct, getProp, lookupProp]

theorem loadMenuState_eq (st : Store) (now w : Int) (isOpenV tsV : JsVal)
    (h : st "menuState" = some (.val (.obj [("isOpen", isOpenV), ("timestamp", tsV)]))) :
    loadMenuState st now w
      = (ageLt now tsV 3600000 && decide (w ≤ 768) && truthy isOpenV) := by
  simp [loadMenuState, h, destruct, getProp, lookupProp]

theorem loadFormData_eq (st : Store) (formId : String) (now t : Int)
    (kvs : List (String × JsVal)) (fields : List (String × String))
    (h : st ("formData_" ++ formId)
      = some (.val (.obj [("data", .obj kvs), ("timestamp", .num t)]))) :
    loadFormData st formId now fields
      = (if now - t < 86400000 then (applyEntries kvs fields, true) else (fields, false)) := by
  simp only [loadFormData, h, destruct, getProp, lookupProp, objEntries, ageLt, toNum]
  simp

theorem phoneTest_false_iff (s : String) (hs : s ≠ "") :
    phoneTest s = false ↔ ∃ c ∈ s.toList, phoneChar c = false := by
  have h1 : phoneTest s = s.toList.all phoneChar := by
    simp [phoneTest, hs]
  rw [h1]
  rw [← Bool.not_eq_true]
  simp [List.all_eq_true]

theorem getD_map_lt {α β : Type} (f : α → β) (l : List α) (i : Nat) (h : i < l.length)
    (d : β) : (l.map f).getD i d = f (l.get ⟨i, h⟩) := by
  induction l generalizing i with
  | nil => exact absurd h (by simp)
  | cons x xs ih =>
    cases i with
    | zero => rfl
    | succ j =>
      simp only [List.map_cons, List.getD_cons_succ]
      exact ih j (by simpa using h)

-- ============================================
-- Claim theorems
-- ============================================

/-- C1: a stored consent record `{accepted: b, timestamp: t}` older than
one year (`now - t ≥ 31536000000` ms) makes `getPrivacyConsent` return
`false` regardless of the stored `accepted` value; a record younger than
one year yields the stored `accepted` value. -/
theorem privacyConsent_expiry (st : Store) (b : Bool) (t now : Int)
    (h : st "privacyConsent"
      = some (.val (.obj [("accepted", .bool b), ("timestamp", .num t)]))) :
    getPrivacyConsent st now
      = (if now - t < 31536000000 then JsVal.bool b else JsVal.bool false) := by
  rw [getPrivacyConsent_eq st now _ _ h]
  simp [ageLt, toNum]

/-- Witness for C1: a record stored `accepted = true` exactly at the
one-year boundary reads back as not accepted, and fresh as accepted. -/
theorem privacyConsent_expiry_witness :
    getPrivacyConsent
      (fun k => if k = "privacyConsent"
        then some (.val (.obj [("accepted", .bool true), ("timestamp", .num 0)])) else none)
      31536000000 = JsVal.bool false := by
  have h := privacyConsent_expiry
    (fun k => if k = "privacyConsent"
      then some (.val (.obj [("accepted", .bool true), ("timestamp", .num 0)])) else none)
    true 0 31536000000 (by simp)
  rw [h, if_neg (by omega)]

/-- C2: on load the menu is restored open iff the persisted record has
`isOpen = true`, is younger than one hour, and the viewport is at most
768 px wide; with no record or an unparsable record the menu stays
closed. -/
theorem menuState_restore_iff (st : Store) (now w : Int) :
    (∀ (b : Bool) (t : Int),
      st "menuState" = some (.val (.obj [("isOpen", .bool b), ("timestamp", .num t)])) →
        (loadMenuState st now w = true ↔ b = true ∧ now - t < 3600000 ∧ w ≤ 768))
    ∧ (st "menuState" = none → loadMenuState st now w = false)
    ∧ (st "menuState" = some StoredDoc.malformed → loadMenuState st now w = false) := by
  refine ⟨?_, ?_, ?_⟩
  · intro b t h
    rw [loadMenuState_eq st now w _ _ h]
    simp only [ageLt, toNum, Bool.and_eq_true, decide_eq_true_eq, truthy]
    tauto
  · intro h
    simp [loadMenuState, h]
  · intro h
    simp [loadMenuState, h]

/-- Witness for C2: a fresh open record on a mobile-width viewport is
restored. -/
theorem menuState_restore_iff_witness :
    loadMenuState
      (fun k => if k = "menuState"
        then some (.val (.obj [("isOpen", .bool true), ("timestamp", .num 0)])) else none)
      1000 500 = true := by
  have h := (menuState_restore_iff
    (fun k => if k = "menuState"
      then some (.val (.obj [("isOpen", .bool true), ("timestamp", .num 0)])) else none)
    1000 500).1 true 0 (by simp)
  exact h.mpr ⟨rfl, by omega, by omega⟩

/-- C3: a well-formed draft is replayed (and the restored-data notice
shown) iff it is strictly younger than 24 hours; fields whose names do
not appear in the draft's data map keep their current (default) values;
an expired or unparsable draft is discarded silently, leaving the form
unchanged. -/
theorem formDraft_restore (st : Store) (formId : String) (now t : Int)
    (kvs : List (String × String)) (fields : List (String × String))
    (h : st ("formData_" ++ formId)
      = some (.val (.obj
          [("data", .obj (kvs.map (fun p => (p.1, JsVal.str p.2)))),
           ("timestamp", .num t)]))) :
    ((loadFormData st formId now fields).2 = true ↔ now - t < 86400000)
    ∧ (∀ n, n ∉ kvs.map Prod.fst →
        lookupField (loadFormData st formId now fields).1 n = lookupField fields n)
    ∧ (¬ now - t < 86400000 → loadFormData st formId now fields = (fields, false))
    ∧ (∀ st2 : Store, st2 ("formData_" ++ formId) = some StoredDoc.malformed →
        loadFormData st2 formId now fields = (fields, false)) := by
  have hld := loadFormData_eq st formId now t _ fields h
  refine ⟨?_, ?_, ?_, ?_⟩
  · rw [hld]
    by_cases hfresh : now - t < 86400000
    · simp [hfresh]
    · simp [hfresh]
  · intro n hn
    rw [hld]
    by_cases hfresh : now - t < 86400000
    · rw [if_pos hfresh]
      have hkeys : (kvs.map (fun p => (p.1, JsVal.str p.2))).map Prod.fst
          = kvs.map Prod.fst := by
        rw [List.map_map]
        rfl
      have hn2 : n ∉ (kvs.map (fun p => (p.1, JsVal.str p.2))).map Prod.fst := by
        rw [hkeys]
        exact hn
      exact applyEntries_lookup_notMem _ fields n hn2
    · rw [if_neg hfresh]
  · intro hfresh
    rw [hld, if_neg hfresh]
  · intro st2 h2
    simp [loadFormData, h2]

/-- Witness for C3: a fresh one-field draft triggers the restore path. -/
theorem formDraft_restore_witness :
    (loadFormData
      (fun k => if k = "formData_join-form"
        then some (.val (.obj [("data", .obj [("a", JsVal.str "x")]), ("timestamp", .num 0)]))
        else none)
      "join-form" 10 [("a", "d1"), ("b", "d2")]).2 = true := by
  have h := (formDraft_restore
    (fun k => if k = "formData_join-form"
      then some (.val (.obj [("data", .obj [("a", JsVal.str "x")]), ("timestamp", .num 0)]))
      else none)
    "join-form" 10 0 [("a", "x")] [("a", "d1"), ("b", "d2")] (by simp)).1
  exact h.mpr (by omega)

/-- C4: saving the form's named, non-submit field values and loading
them back within the 24-hour window writes each saved value back into
the field of the same name; in particular, on a form whose fields still
hold the saved values (distinct names), the round trip reproduces the
name-to-value mapping exactly, leaving every field as it was. -/
theorem formData_roundtrip (inputs : List FieldInput) (st : Store) (formId : String)
    (now now2 : Int) (hfresh : now2 - now < 86400000) :
    (∀ (fields : List (String × String)) (n v : String),
      lookupField (savedData inputs) n = some v → n ∈ fields.map Prod.fst →
        lookupField (loadFormData (saveFormData inputs st formId now) formId now2 fields).1 n
          = some v)
    ∧ ((inputs.map FieldInput.name).Nodup →
        (loadFormData (saveFormData inputs st formId now) formId now2
            (inputs.map (fun i => (i.name, i.value)))).1
          = inputs.map (fun i => (i.name, i.value))) := by
  have hst : (saveFormData inputs st formId now) ("formData_" ++ formId)
      = some (.val (.obj
          [("data", .obj ((savedData inputs).map (fun p => (p.1, JsVal.str p.2)))),
           ("timestamp", .num now)])) := by
    simp [saveFormData, setKey]
  constructor
  · intro fields n v hl hmem
    rw [loadFormData_eq _ formId now2 now _ fields hst, if_pos hfresh]
    show lookupField (applyEntries _ fields) n = some v
    rw [applyEntries_str]
    exact setAll_lookup_mem _ _ _ _ (savedData_keys_nodup inputs) hl hmem
  · intro hnodup
    rw [loadFormData_eq _ formId now2 now _ _ hst, if_pos hfresh]
    show applyEntries _ _ = _
    rw [applyEntries_str]
    apply setAll_id
    intro p hp
    rw [savedData_eq_of_nodup inputs hnodup] at hp
    rcases List.mem_map.mp hp with ⟨i, hifil, hpe⟩
    have hi : i ∈ inputs := List.mem_of_mem_filter hifil
    rw [← hpe]
    exact lookupField_map_name inputs i hi hnodup

/-- Witness for C4: one named text field round-trips unchanged. -/
theorem formData_roundtrip_witness :
    (loadFormData
      (saveFormData [⟨"v1", "text", false, "a", none⟩] emptyStore "join-form" 0)
      "join-form" 5 [("a", "v1")]).1 = [("a", "v1")] := by
  have h := (formData_roundtrip [⟨"v1", "text", false, "a", none⟩] emptyStore "join-form"
    0 5 (by omega)).2 (by decide)
  exact h

/-- C5: `validateField` fails exactly under rules (a) required-empty,
(b) email pattern, (c) phone character set, (d) minimum length, checked
in this order with the first failing rule determining the message; the
value `"a@b"` in an email field fails with "Please enter a valid email
address" while `"a@b.com"` passes. -/
theorem validateField_rules (i : FieldInput) :
    (validateField i = none ↔ ¬ruleRequired i ∧ ¬ruleEmail i ∧ ¬rulePhone i ∧ ¬ruleMinLen i)
    ∧ (ruleRequired i → validateField i = some "This field is required")
    ∧ (¬ruleRequired i → ruleEmail i →
        validateField i = some "Please enter a valid email address")
    ∧ (¬ruleRequired i → ¬ruleEmail i → rulePhone i →
        validateField i = some "Please enter a valid phone number")
    ∧ (¬ruleRequired i → ¬ruleEmail i → ¬rulePhone i → ∀ ml, i.minlength = some ml →
        ml ≠ "" → minLenLt (jsTrim i.value).length ml = true →
        validateField i = some ("Please enter at least " ++ ml ++ " characters"))
    ∧ validateField ⟨"a@b", "email", false, "e", none⟩
        = some "Please enter a valid email address"
    ∧ validateField ⟨"a@b.com", "email", false, "e", none⟩ = none := by
  refine ⟨?_, ?_, ?_, ?_, ?_, by decide, by decide⟩
  · simp only [validateField]
    by_cases h1 : i.required = true ∧ jsTrim i.value = ""
    · rw [if_pos h1]
      simp [ruleRequired, h1]
    · rw [if_neg h1]
      by_cases h2 : i.type = "email" ∧ jsTrim i.value ≠ "" ∧ emailTest (jsTrim i.value) = false
      · rw [if_pos h2]
        simp [ruleEmail, h2]
      · rw [if_neg h2]
        by_cases h3 : i.name = "phone" ∧ jsTrim i.value ≠ ""
            ∧ phoneTest (jsTrim i.value) = false
        · rw [if_pos h3]
          have h3e : rulePhone i :=
            ⟨h3.1, h3.2.1, (phoneTest_false_iff _ h3.2.1).mp h3.2.2⟩
          simp [h3e]
        · rw [if_neg h3]
          have h3n : ¬rulePhone i := by
            intro hc
            exact h3 ⟨hc.1, hc.2.1, (phoneTest_false_iff _ hc.2.1).mpr hc.2.2⟩
          cases hml : i.minlength with
          | none =>
            simp [ruleRequired, ruleEmail, ruleMinLen, h1, h2, h3n, hml]
          | some ml =>
            show (if ml ≠ "" ∧ minLenLt (jsTrim i.value).length ml = true then
                some ("Please enter at least " ++ ml ++ " characters") else none) = none ↔
              ¬ruleRequired i ∧ ¬ruleEmail i ∧ ¬rulePhone i ∧ ¬ruleMinLen i
            by_cases h4 : ml ≠ "" ∧ minLenLt (jsTrim i.value).length ml = true
            · rw [if_pos h4]
              simp [ruleMinLen, hml, h4]
            · rw [if_neg h4]
              simp only [ruleRequired, ruleEmail, ruleMinLen, hml]
              simp [h1, h2, h3n]
              intro hne
              by_contra hc
              simp only [Bool.not_eq_false] at hc
              exact h4 ⟨hne, hc⟩
  · intro hr
    simp only [validateField]
    exact if_pos hr
  · intro hnr he
    have h1 : ¬(i.required = true ∧ jsTrim i.value = "") := hnr
    have h2 : i.type = "email" ∧ jsTrim i.value ≠ "" ∧ emailTest (jsTrim i.value) = false := he
    simp only [validateField]
    rw [if_neg h1, if_pos h2]
  · intro hnr hne hp
    have h1 : ¬(i.required = true ∧ jsTrim i.value = "") := hnr
    have h2 : ¬(i.type = "email" ∧ jsTrim i.value ≠ "" ∧ emailTest (jsTrim i.value) = false) :=
      hne
    have h3 : i.name = "phone" ∧ jsTrim i.value ≠ "" ∧ phoneTest (jsTrim i.value) = false :=
      ⟨hp.1, hp.2.1, (phoneTest_false_iff _ hp.2.1).mpr hp.2.2⟩
    simp only [validateField]
    rw [if_neg h1, if_neg h2, if_pos h3]
  · intro hnr hne hnp ml hml hmlne hlt
    have h1 : ¬(i.required = true ∧ jsTrim i.value = "") := hnr
    have h2 : ¬(i.type = "email" ∧ jsTrim i.value ≠ "" ∧ emailTest (jsTrim i.value) = false) :=
      hne
    have h3 : ¬(i.name = "phone" ∧ jsTrim i.value ≠ ""
        ∧ phoneTest (jsTrim i.value) = false) := by
      intro hc
      exact hnp ⟨hc.1, hc.2.1, (phoneTest_false_iff _ hc.2.1).mp hc.2.2⟩
    simp only [validateField]
    rw [if_neg h1, if_neg h2, if_neg h3]
    simp only [hml]
    rw [if_pos ⟨hmlne, hlt⟩]

/-- Witness for C5: a phone field with a letter fails with the phone
message through the rule chain. -/
theorem validateField_rules_witness :
    validateField ⟨"12a", "text", false, "phone", none⟩
      = some "Please enter a valid phone number" := by
  exact (validateField_rules ⟨"12a", "text", false, "phone", none⟩).2.2.2.1
    (by simp [ruleRequired]) (by simp [ruleEmail])
    ⟨by decide, by decide, ⟨'a', by decide, by decide⟩⟩

/-- C6: a submission with at least one failing field is aborted with
storage untouched (the draft is not cleared) and focus on the first
failing field; only the all-pass path clears the saved draft and
submits. -/
theorem handleSubmit_validation (inputs : List FieldInput) (st : Store) (formId : String) :
    ((∃ i ∈ inputs, (validateField i).isSome = true) →
      handleSubmit inputs st formId
        = (false, st, inputs.find? (fun i => (validateField i).isSome)))
    ∧ ((∀ i ∈ inputs, validateField i = none) →
      handleSubmit inputs st formId = (true, clearSavedFormData st formId, none)) := by
  constructor
  · rintro ⟨i, hi, hsome⟩
    have hall : ¬ inputs.all (fun j => (validateField j).isNone) = true := by
      simp only [List.all_eq_true]
      intro hforall
      have hnone := hforall i hi
      simp only [Option.isNone_iff_eq_none] at hnone
      rw [hnone] at hsome
      simp at hsome
    simp only [handleSubmit]
    rw [if_neg hall]
  · intro hnone
    have hall : inputs.all (fun j => (validateField j).isNone) = true := by
      simp only [List.all_eq_true]
      intro j hj
      simp [Option.isNone_iff_eq_none, hnone j hj]
    simp only [handleSubmit]
    rw [if_pos hall]

/-- Witness for C6: a required field left empty aborts the submission,
leaves storage untouched and focuses that field. -/
theorem handleSubmit_validation_witness :
    handleSubmit [⟨"", "text", true, "n", none⟩] emptyStore "join-form"
      = (false, emptyStore, some ⟨"", "text", true, "n", none⟩) := by
  have h := (handleSubmit_validation [⟨"", "text", true, "n", none⟩] emptyStore
    "join-form").1 ⟨⟨"", "text", true, "n", none⟩, by simp, by decide⟩
  rw [h]
  rfl

/-- C7 counterexample: with query `" "` (a single space) over the single
item `"trail"`, the item stays visible although the query is nonempty
and the item's text does not contain it — the code trims the query
before matching, which the claim as stated does not account for. -/
theorem filterContent_trim_counterexample :
    (filterContent " " ["trail"]).1 = [true]
    ∧ (" " : String) ≠ ""
    ∧ jsIncludes (jsToLower "trail") " " = false := by
  decide

/-- C7 (amended): an item is visible iff the lower-cased, trimmed query
is empty or the item's lower-cased full text contains it as a substring;
the live region reports "Showing N of M items" with N the visible count
and M the total; for query "ski" over the three sample items two remain
visible and the region reads "Showing 2 of 3 items". -/
theorem filterContent_spec (q : String) (items : List String) :
    (∀ i : Fin items.length,
      ((filterContent q items).1.getD i.val false = true ↔
        (jsTrim (jsToLower q) = "" ∨
          jsIncludes (jsToLower (items.get i)) (jsTrim (jsToLower q)) = true)))
    ∧ (filterContent q items).2
        = "Showing " ++ toString ((filterContent q items).1.count true) ++ " of "
            ++ toString items.length ++ " items"
    ∧ filterContent "ski" ["Nordic Skiing Club", "Trail Map", "Ski Waxing Guide"]
        = ([true, false, true], "Showing 2 of 3 items") := by
  refine ⟨?_, rfl, by decide⟩
  intro i
  have hvis : (filterContent q items).1
      = items.map (fun text =>
          jsIncludes (jsToLower text) (jsTrim (jsToLower q))
            || decide (jsTrim (jsToLower q) = "")) := rfl
  rw [hvis, getD_map_lt _ items i.val i.isLt false]
  simp only [Bool.or_eq_true, decide_eq_true_eq]
  exact or_comm

/-- C8 counterexample: a consent value that parses but mismatches the
expected schema (`accepted` is the string "yes", not a boolean) is not
treated as absent: while fresh it makes `getPrivacyConsent` return the
truthy string instead of `false`, so the banner stays hidden. -/
theorem schemaMismatch_consent_counterexample :
    getPrivacyConsent
      (fun k => if k = "privacyConsent"
        then some (.val (.obj [("accepted", .str "yes"), ("timestamp", .num 0)])) else none)
      0 = JsVal.str "yes"
    ∧ JsVal.str "yes" ≠ JsVal.bool false
    ∧ privacyNoticeShown
        (fun k => if k = "privacyConsent"
          then some (.val (.obj [("accepted", .str "yes"), ("timestamp", .num 0)])) else none)
        0 = false := by
  refine ⟨rfl, ?_, rfl⟩
  intro h
  exact JsVal.noConfusion h

/-- C8 (amended): every stored value on which `JSON.parse` throws is
treated by every reader exactly as an absent record: `getPrivacyConsent`
returns `false` and the loaders restore nothing, with the exception
confined to the reader. -/
theorem unparsable_as_absent (st : Store) (now w : Int) (formId : String)
    (fields : List (String × String)) :
    (st "privacyConsent" = some StoredDoc.malformed →
      getPrivacyConsent st now = JsVal.bool false)
    ∧ (st "menuState" = some StoredDoc.malformed → loadMenuState st now w = false)
    ∧ (st ("formData_" ++ formId) = some StoredDoc.malformed →
      loadFormData st formId now fields = (fields, false)) := by
  refine ⟨fun h => ?_, fun h => ?_, fun h => ?_⟩
  · simp [getPrivacyConsent, h]
  · simp [loadMenuState, h]
  · simp [loadFormData, h]

/-- Witness for C8's amended statement on a store holding only
unparsable values. -/
theorem unparsable_as_absent_witness :
    getPrivacyConsent (fun _ => some StoredDoc.malformed) 0 = JsVal.bool false :=
  (unparsable_as_absent (fun _ => some StoredDoc.malformed) 0 0 "f" []).1 rfl

/-- C9: confirmed "Clear my data" erases every key and reloads the
page, after which the controllers initialize against empty storage (the
privacy banner is shown again, nothing is restored); an unconfirmed
dialog leaves storage untouched and does not reload. -/
theorem clearAllData_spec (st : Store) (now w : Int) (formId : String)
    (fields : List (String × String)) :
    (∀ k, (clearAllData true st).1 k = none)
    ∧ (clearAllData true st).2 = true
    ∧ privacyNoticeShown (clearAllData true st).1 now = true
    ∧ loadMenuState (clearAllData true st).1 now w = false
    ∧ loadFormData (clearAllData true st).1 formId now fields = (fields, false)
    ∧ clearAllData false st = (st, false) :=
  ⟨fun _ => rfl, rfl, rfl, rfl, rfl, rfl⟩

/-- C10: every expiry comparison is strict, so a record aged exactly its
stated expiry is already expired: consent at exactly one year reads not
accepted, menu state at exactly one hour is not restored, and a draft at
exactly 24 hours is not replayed. -/
theorem expiry_boundary_strict (t w : Int) (b : Bool) (formId : String)
    (fields : List (String × String)) (kvs : List (String × JsVal)) :
    getPrivacyConsent
      (fun k => if k = "privacyConsent"
        then some (.val (.obj [("accepted", .bool b), ("timestamp", .num t)])) else none)
      (t + 31536000000) = JsVal.bool false
    ∧ loadMenuState
      (fun k => if k = "menuState"
        then some (.val (.obj [("isOpen", .bool b), ("timestamp", .num t)])) else none)
      (t + 3600000) w = false
    ∧ loadFormData
      (fun k => if k = "formData_" ++ formId
        then some (.val (.obj [("data", .obj kvs), ("timestamp", .num t)])) else none)
      formId (t + 86400000) fields = (fields, false) := by
  refine ⟨?_, ?_, ?_⟩
  · rw [getPrivacyConsent_eq _ _ (JsVal.bool b) (JsVal.num t) (by simp)]
    have hb : ¬ (t + 31536000000 - t < 31536000000) := by omega
    simp [ageLt, toNum, hb]
  · rw [loadMenuState_eq _ _ _ (JsVal.bool b) (JsVal.num t) (by simp)]
    have hb : ¬ (t + 3600000 - t < 3600000) := by omega
    simp [ageLt, toNum, hb]
  · rw [loadFormData_eq _ formId _ t kvs fields (by simp)]
    rw [if_neg (by omega)]
